import Mathlib

/-!
Verification of the `fast-client` Rust crate (`src/fast-client/src/lib.rs`):
a Delta Exchange REST client with HMAC-SHA256 request signing, and a Binance
websocket book-ticker listener with a fixed-backoff reconnect loop.

Bytes are modelled as `Nat` values below 256, 32-bit words as `Nat` values
below 2^32 with explicit `% 2^32` where overflow matters.
-/

namespace FastClient

/-! ## 32-bit word arithmetic (SHA-256 primitives) -/

/-- The modulus 2^32 for 32-bit words. -/
def w32 : Nat := 4294967296

/-- Addition modulo 2^32. -/
def add32 (a b : Nat) : Nat := (a + b) % w32

/-- Bitwise complement of a 32-bit word. -/
def not32 (x : Nat) : Nat := Nat.xor x (w32 - 1)

/-- Rotate a 32-bit word right by `n` bits (`0 < n < 32`). -/
def rotr32 (n x : Nat) : Nat := x / 2 ^ n + x % 2 ^ n * 2 ^ (32 - n)

/-- Logical shift right by `n` bits. -/
def shr32 (n x : Nat) : Nat := x / 2 ^ n

/-- SHA-256 `Ch(x,y,z) = (x ∧ y) ⊕ (¬x ∧ z)`. -/
def ch32 (x y z : Nat) : Nat := Nat.xor (Nat.land x y) (Nat.land (not32 x) z)

/-- SHA-256 `Maj(x,y,z) = (x ∧ y) ⊕ (x ∧ z) ⊕ (y ∧ z)`. -/
def maj32 (x y z : Nat) : Nat :=
  Nat.xor (Nat.land x y) (Nat.xor (Nat.land x z) (Nat.land y z))

/-- SHA-256 `Σ0(x) = rotr 2 ⊕ rotr 13 ⊕ rotr 22`. -/
def bigSigma0 (x : Nat) : Nat :=
  Nat.xor (rotr32 2 x) (Nat.xor (rotr32 13 x) (rotr32 22 x))

/-- SHA-256 `Σ1(x) = rotr 6 ⊕ rotr 11 ⊕ rotr 25`. -/
def bigSigma1 (x : Nat) : Nat :=
  Nat.xor (rotr32 6 x) (Nat.xor (rotr32 11 x) (rotr32 25 x))

/-- SHA-256 `σ0(x) = rotr 7 ⊕ rotr 18 ⊕ shr 3`. -/
def smallSigma0 (x : Nat) : Nat :=
  Nat.xor (rotr32 7 x) (Nat.xor (rotr32 18 x) (shr32 3 x))

/-- SHA-256 `σ1(x) = rotr 17 ⊕ rotr 19 ⊕ shr 10`. -/
def smallSigma1 (x : Nat) : Nat :=
  Nat.xor (rotr32 17 x) (Nat.xor (rotr32 19 x) (shr32 10 x))

/-! ## SHA-256 constants, derived from their FIPS 180-4 definitions
(fractional parts of square / cube roots of the first primes) rather than
transcribed, to rule out copying errors. -/

/-- One step of a bitwise integer cube root: try setting bit `k`. -/
def icbrtStep (n : Nat) : Nat → Nat → Nat
  | 0, r => r
  | k + 1, r => if (r + 2 ^ k) ^ 3 ≤ n then icbrtStep n k (r + 2 ^ k) else icbrtStep n k r

/-- Integer cube root (largest `r` with `r^3 ≤ n`) for `n < 2^108`. -/
def icbrt (n : Nat) : Nat := icbrtStep n 36 0

/-- The first 64 primes, sources of the SHA-256 round constants. -/
def primes64 : List Nat :=
  [2, 3, 5, 7, 11, 13, 17, 19, 23, 29, 31, 37, 41, 43, 47, 53,
   59, 61, 67, 71, 73, 79, 83, 89, 97, 101, 103, 107, 109, 113, 127, 131,
   137, 139, 149, 151, 157, 163, 167, 173, 179, 181, 191, 193, 197, 199, 211, 223,
   227, 229, 233, 239, 241, 251, 257, 263, 269, 271, 277, 281, 283, 293, 307, 311]

/-- SHA-256 round constants: first 32 bits of the fractional parts of the cube
roots of the first 64 primes. -/
def sha256K : List Nat := primes64.map (fun p => icbrt (p * 2 ^ 96) % w32)

/-- SHA-256 initial hash value: first 32 bits of the fractional parts of the
square roots of the first 8 primes. -/
def sha256H0 : List Nat := (primes64.take 8).map (fun p => Nat.sqrt (p * 2 ^ 64) % w32)

/-! ## SHA-256 -/

/-- Big-endian 8-byte encoding of a (length) value. -/
def be64 (n : Nat) : List Nat :=
  [n / 2 ^ 56 % 256, n / 2 ^ 48 % 256, n / 2 ^ 40 % 256, n / 2 ^ 32 % 256,
   n / 2 ^ 24 % 256, n / 2 ^ 16 % 256, n / 2 ^ 8 % 256, n % 256]

/-- FIPS 180-4 message padding: append `0x80`, zero bytes to 56 mod 64, then
the bit length as 8 big-endian bytes. -/
def padMsg (msg : List Nat) : List Nat :=
  msg ++ [128] ++ List.replicate ((64 - (msg.length + 9) % 64) % 64) 0
      ++ be64 (8 * msg.length)

/-- Split a byte list into 64-byte blocks. -/
def chunk64 (l : List Nat) : List (List Nat) :=
  if l = [] then [] else l.take 64 :: chunk64 (l.drop 64)
termination_by l.length
decreasing_by
  simp only [List.length_drop]
  have hl : l.length ≠ 0 := fun hz => by simp_all [List.length_eq_zero]
  omega

/-- Pack bytes into big-endian 32-bit words. -/
def toWords32 : List Nat → List Nat
  | b0 :: b1 :: b2 :: b3 :: rest => (((b0 * 256 + b1) * 256 + b2) * 256 + b3) :: toWords32 rest
  | _ => []

/-- Unpack a 32-bit word into 4 big-endian bytes. -/
def wordBytes (w : Nat) : List Nat :=
  [w / 2 ^ 24 % 256, w / 2 ^ 16 % 256, w / 2 ^ 8 % 256, w % 256]

/-- Extend the 16 message words of a block to the 64-entry message schedule. -/
def schedule (block : List Nat) : Array Nat :=
  (List.range 48).foldl
    (fun w i =>
      w.push (add32 (add32 (smallSigma1 (w.getD (i + 14) 0)) (w.getD (i + 9) 0))
                    (add32 (smallSigma0 (w.getD (i + 1) 0)) (w.getD i 0))))
    (toWords32 block).toArray

/-- The eight SHA-256 working registers. -/
structure Regs where
  a : Nat
  b : Nat
  c : Nat
  d : Nat
  e : Nat
  f : Nat
  g : Nat
  h : Nat
deriving Repr, DecidableEq

/-- One SHA-256 compression round with round constant `k` and schedule word `w`. -/
def round256 (s : Regs) (kw : Nat × Nat) : Regs :=
  let t1 := add32 s.h (add32 (bigSigma1 s.e)
              (add32 (ch32 s.e s.f s.g) (add32 kw.1 kw.2)))
  let t2 := add32 (bigSigma0 s.a) (maj32 s.a s.b s.c)
  { a := add32 t1 t2, b := s.a, c := s.b, d := s.c,
    e := add32 s.d t1, f := s.e, g := s.f, h := s.g }

/-- Compress one 64-byte block into the running hash (8 words). -/
def compress (H : List Nat) (block : List Nat) : List Nat :=
  let init : Regs :=
    { a := H.getD 0 0, b := H.getD 1 0, c := H.getD 2 0, d := H.getD 3 0,
      e := H.getD 4 0, f := H.getD 5 0, g := H.getD 6 0, h := H.getD 7 0 }
  let s := (sha256K.zip (schedule block).toList).foldl round256 init
  [add32 (H.getD 0 0) s.a, add32 (H.getD 1 0) s.b, add32 (H.getD 2 0) s.c,
   add32 (H.getD 3 0) s.d, add32 (H.getD 4 0) s.e, add32 (H.getD 5 0) s.f,
   add32 (H.getD 6 0) s.g, add32 (H.getD 7 0) s.h]

/-- SHA-256 of a byte list, as the 32 digest bytes. -/
def sha256 (msg : List Nat) : List Nat :=
  (((chunk64 (padMsg msg)).foldl compress sha256H0).map wordBytes).flatten

/-! ## HMAC-SHA256, as implemented by the RustCrypto `hmac` crate
(block size 64; keys longer than a block are hashed, all keys are then
zero-padded to the block size — key setup accepts every key length). -/

/-- HMAC key normalization to one 64-byte block. -/
def hmacKeyBlock (key : List Nat) : List Nat :=
  let k := if 64 < key.length then sha256 key else key
  k ++ List.replicate (64 - k.length) 0

/-- The state of a MAC instance: normalized key and buffered input. -/
structure HmacState where
  key0 : List Nat
  buf : List Nat
deriving Repr, DecidableEq

/-- Model of `HmacSha256::new_from_slice`: key setup for HMAC-SHA256.
Returns `Option` to mirror the `Result<_, InvalidLength>` signature of the
RustCrypto API; for HMAC every key length is valid, so it always succeeds. -/
def newFromSlice (key : List Nat) : Option HmacState :=
  some { key0 := hmacKeyBlock key, buf := [] }

/-- Model of `Mac::update`: append input bytes to the MAC state. -/
def hmacUpdate (st : HmacState) (data : List Nat) : HmacState :=
  { st with buf := st.buf ++ data }

/-- Model of `Mac::finalize`: `H((K0 ⊕ opad) ‖ H((K0 ⊕ ipad) ‖ text))`. -/
def hmacFinalize (st : HmacState) : List Nat :=
  sha256 (st.key0.map (Nat.xor 92) ++ sha256 (st.key0.map (Nat.xor 54) ++ st.buf))

/-- HMAC-SHA256 of `msg` keyed by `key`, as 32 digest bytes. -/
def hmacSha256 (key msg : List Nat) : List Nat :=
  hmacFinalize (hmacUpdate { key0 := hmacKeyBlock key, buf := [] } msg)

/-! ## Hex and UTF-8 -/

/-- Lowercase hex digit for a value below 16. -/
def hexDigit (n : Nat) : Char :=
  if n < 10 then Char.ofNat (48 + n) else Char.ofNat (87 + n)

/-- Lowercase hex encoding of a byte list (model of `hex::encode`). -/
def hexEncode (bs : List Nat) : String :=
  String.mk (bs.flatMap fun b => [hexDigit (b / 16), hexDigit (b % 16)])

/-- UTF-8 encoding of one character. -/
def utf8Char (c : Char) : List Nat :=
  let n := c.toNat
  if n < 128 then [n]
  else if n < 2048 then [192 + n / 64, 128 + n % 64]
  else if n < 65536 then [224 + n / 4096, 128 + n / 64 % 64, 128 + n % 64]
  else [240 + n / 262144, 128 + n / 4096 % 64, 128 + n / 64 % 64, 128 + n % 64]

/-- The UTF-8 bytes of a string (model of Rust `str::as_bytes`). -/
def strBytes (s : String) : List Nat := s.toList.flatMap utf8Char

/-- HMAC-SHA256 of string `msg` keyed by string `secret`, lowercase hex. -/
def hmacSha256Hex (secret msg : String) : String :=
  hexEncode (hmacSha256 (strBytes secret) (strBytes msg))

/-! ## JSON values

Model of `serde_json::Value`. Numbers are restricted to integers (no claim
depends on the value or printing of a JSON number; the decode claims only
distinguish string values from non-strings, and the serialization claims are
independent of the payload's contents). Objects are field lists; duplicate
keys are not treated specially (`serde` rejects duplicate fields, a corner
the claims never touch). -/

inductive Json where
  | null
  | bool (b : Bool)
  | num (n : Int)
  | str (s : String)
  | arr (elems : List Json)
  | obj (fields : List (String × Json))
deriving Repr

/-- JSON string escaping as `serde_json` performs it. -/
def escapeChar (c : Char) : List Char :=
  if c = Char.ofNat 34 then [Char.ofNat 92, Char.ofNat 34]
  else if c = Char.ofNat 92 then [Char.ofNat 92, Char.ofNat 92]
  else if c.toNat = 8 then [Char.ofNat 92, 'b']
  else if c.toNat = 9 then [Char.ofNat 92, 't']
  else if c.toNat = 10 then [Char.ofNat 92, 'n']
  else if c.toNat = 12 then [Char.ofNat 92, 'f']
  else if c.toNat = 13 then [Char.ofNat 92, 'r']
  else if c.toNat < 32 then
    [Char.ofNat 92, 'u', '0', '0', hexDigit (c.toNat / 16), hexDigit (c.toNat % 16)]
  else [c]

/-- Escape a whole string body. -/
def escapeStr (s : String) : String := String.mk (s.toList.flatMap escapeChar)

/-- Quote of the JSON compact form. -/
def jquote : String := String.mk [Char.ofNat 34]

mutual

/-- Compact serialization, the model of `serde_json::Value::to_string`. -/
def Json.serialize : Json → String
  | .null => "null"
  | .bool true => "true"
  | .bool false => "false"
  | .num n => toString n
  | .str s => jquote ++ escapeStr s ++ jquote
  | .arr xs => "[" ++ serializeItems xs ++ "]"
  | .obj fs => "\x7b" ++ serializeFields fs ++ "\x7d"

/-- Comma-separated serialization of array elements. -/
def serializeItems : List Json → String
  | [] => ""
  | [x] => x.serialize
  | x :: y :: rest => x.serialize ++ "," ++ serializeItems (y :: rest)

/-- Comma-separated serialization of object fields. -/
def serializeFields : List (String × Json) → String
  | [] => ""
  | [(k, v)] => jquote ++ escapeStr k ++ jquote ++ ":" ++ v.serialize
  | (k, v) :: f :: rest =>
      jquote ++ escapeStr k ++ jquote ++ ":" ++ v.serialize ++ "," ++ serializeFields (f :: rest)

end

/-! ## The Delta Exchange REST client -/

/-- The credential-holding REST client (`DeltaNativeClient`); the pooled
HTTP transport carries no state the claims depend on and is left out. -/
structure DeltaNativeClient where
  api_key : String
  api_secret : String
  base_url : String
deriving Repr, DecidableEq

/-- Model of `DeltaNativeClient::sign` (src/fast-client/src/lib.rs:54-63): the canonical
string is `method ‖ timestamp ‖ path ‖ query ‖ body`; the digest is
HMAC-SHA256 keyed by the raw secret bytes, lowercase hex encoded. The error
branch mirrors the `Err` arm of `HmacSha256::new_from_slice`. -/
def DeltaNativeClient.sign (c : DeltaNativeClient)
    (method path query body timestamp : String) : Except String String :=
  let signature_data := method ++ timestamp ++ path ++ query ++ body
  match newFromSlice (strBytes c.api_secret) with
  | none => .error "Invalid API Secret"
  | some mac => .ok (hexEncode (hmacFinalize (hmacUpdate mac (strBytes signature_data))))

/-- An outbound HTTP request as the client assembles it: method, URL, the
headers in the order they are set, and the raw body string. -/
structure HttpRequest where
  method : String
  url : String
  headers : List (String × String)
  body : String
deriving Repr, DecidableEq

/-- Value of a header by name (first occurrence). -/
def headerValue (r : HttpRequest) (k : String) : Option String :=
  (r.headers.find? fun p => p.1 == k).map (·.2)

/-- Model of `DeltaNativeClient::place_order` (src/fast-client/src/lib.rs:66-94) up to
the network boundary: the request it sends. The system clock read
(`SystemTime::now().duration_since(UNIX_EPOCH).as_secs()`) is modelled by the
parameter `now`, the whole seconds since epoch at signing time. -/
def DeltaNativeClient.place_order (c : DeltaNativeClient) (body : Json) (now : Nat) :
    Except String HttpRequest :=
  let path := "/v2/orders"
  let method := "POST"
  let body_str := body.serialize
  let timestamp := toString now
  match c.sign method path "" body_str timestamp with
  | .error e => .error e
  | .ok signature =>
    .ok { method := method
        , url := c.base_url ++ path
        , headers := [("api-key", c.api_key), ("timestamp", timestamp),
                      ("signature", signature), ("Content-Type", "application/json")]
        , body := body_str }

/-! ## Rust float parsing

Model of `str::parse::<f64>` restricted to finite decimal literals: optional
sign, integer/fraction digits, optional decimal exponent, whole string
consumed. The value is kept as the exact rational the literal denotes; IEEE-754
rounding is abstracted away, and the special forms `inf`/`infinity`/`nan`
(unused by the market-data wire format) are treated as parse failures. -/

/-- Value of a digit run. -/
def digitsVal (ds : List Char) : Nat :=
  ds.foldl (fun acc c => acc * 10 + (c.toNat - 48)) 0

/-- Strip a leading sign, returning whether it was `-`. -/
def parseSign : List Char → Bool × List Char
  | '-' :: r => (true, r)
  | '+' :: r => (false, r)
  | cs => (false, cs)

/-- Parse the optional exponent suffix and apply it to mantissa `m`. -/
def parseExpPart (m : ℚ) (cs : List Char) : Option ℚ :=
  match cs with
  | [] => some m
  | c :: r =>
    if c = 'e' ∨ c = 'E' then
      let (neg, r2) := parseSign r
      let ds := r2.takeWhile Char.isDigit
      let r3 := r2.dropWhile Char.isDigit
      if ds = [] ∨ r3 ≠ [] then none
      else some (if neg then m / 10 ^ digitsVal ds else m * 10 ^ digitsVal ds)
    else none

/-- Parse an unsigned decimal literal: `Digits Exp?`, `Digits '.' Digits? Exp?`
or `'.' Digits Exp?`. -/
def parseF64core (cs : List Char) : Option ℚ :=
  let ip := cs.takeWhile Char.isDigit
  let r1 := cs.dropWhile Char.isDigit
  match r1 with
  | '.' :: r2 =>
    let fp := r2.takeWhile Char.isDigit
    let r3 := r2.dropWhile Char.isDigit
    if ip = [] ∧ fp = [] then none
    else parseExpPart ((digitsVal ip : ℚ) + (digitsVal fp : ℚ) / 10 ^ fp.length) r3
  | _ => if ip = [] then none else parseExpPart (digitsVal ip : ℚ) r1

/-- Model of `str::parse::<f64>`, on the grammar above. -/
def parseF64 (s : String) : Option ℚ :=
  let (neg, cs) := parseSign s.toList
  (parseF64core cs).map fun q => if neg then -q else q

/-! ## The Binance book-ticker listener -/

/-- The inner payload of a combined-stream frame (`BinanceData`,
src/fast-client/src/lib.rs:173-180): all five fields are required strings. -/
structure BinanceData where
  s : String
  b : String
  B : String
  a : String
  A : String
deriving Repr, DecidableEq

/-- The outer frame shape (`BinanceMsg`, src/fast-client/src/lib.rs:168-171):
the `data` field is optional. -/
structure BinanceMsg where
  data : Option BinanceData
deriving Repr, DecidableEq

/-- The update delivered to the JavaScript callback (`DepthUpdate`,
src/fast-client/src/lib.rs:159-166). The `f64` fields are modelled as exact
rationals (see `parseF64`). -/
structure DepthUpdate where
  s : String
  bb : ℚ
  bq : ℚ
  ba : ℚ
  aq : ℚ
deriving Repr, DecidableEq

/-- Look up an object field by name (first occurrence); `none` on non-objects. -/
def getField (j : Json) (k : String) : Option Json :=
  match j with
  | .obj fs => (fs.find? fun p => p.1 == k).map (·.2)
  | _ => none

/-- Extract a JSON string value; any other shape (missing field, number,
object, ...) is a deserialization failure, as for a `serde` `String` field. -/
def asString : Option Json → Option String
  | some (.str s) => some s
  | _ => none

/-- Model of the `serde` deserialization of `BinanceData`: every one of the five fields
must be present with a string value, unknown fields are ignored. -/
def decodeBinanceData (j : Json) : Option BinanceData :=
  (asString (getField j "s")).bind fun s =>
  (asString (getField j "b")).bind fun b =>
  (asString (getField j "B")).bind fun bq =>
  (asString (getField j "a")).bind fun a =>
  (asString (getField j "A")).map fun aq =>
  { s := s, b := b, B := bq, a := a, A := aq }

/-- Model of the `serde` deserialization of `BinanceMsg`: `data` absent or `null` gives
`none` for the field; a present `data` value that fails to deserialize as
`BinanceData` fails the whole message. -/
def decodeBinanceMsg (j : Json) : Option BinanceMsg :=
  match j with
  | .obj _ =>
    match getField j "data" with
    | none => some { data := none }
    | some .null => some { data := none }
    | some dj => (decodeBinanceData dj).map fun d => { data := some d }
  | _ => none

/-- Rust `str::replace("USDT", "")`: remove every non-overlapping occurrence
of `USDT`, scanning left to right (src/fast-client/src/lib.rs:225). -/
def replaceUSDT : List Char → List Char
  | 'U' :: 'S' :: 'D' :: 'T' :: rest => replaceUSDT rest
  | c :: rest => c :: replaceUSDT rest
  | [] => []

/-- The `DepthUpdate` built from a decoded payload
(src/fast-client/src/lib.rs:225-235): symbol with `USDT` occurrences removed,
four numeric fields parsed with `unwrap_or(0.0)`. -/
def binanceDataUpdate (d : BinanceData) : DepthUpdate :=
  { s := String.mk (replaceUSDT d.s.toList)
  , bb := (parseF64 d.b).getD 0
  , bq := (parseF64 d.B).getD 0
  , ba := (parseF64 d.a).getD 0
  , aq := (parseF64 d.A).getD 0 }

/-- Result of `simd_json::from_slice::<BinanceMsg>` on a text frame's payload:
either a parse error, or the parsed JSON document. -/
inductive ParseOutcome where
  | err
  | ok (j : Json)
deriving Repr

/-- The callback invocations one text frame produces
(src/fast-client/src/lib.rs:219-241): none on a JSON parse failure, none when
the decoded message has no `data`, exactly one `DepthUpdate` otherwise. -/
def frameUpdates (p : ParseOutcome) : List DepthUpdate :=
  match p with
  | .err => []
  | .ok j =>
    match decodeBinanceMsg j with
    | some { data := some d } => [binanceDataUpdate d]
    | _ => []

/-- One event seen by the inner receive loop: a text frame (with the parse
outcome of its payload), a frame of another opcode, or a frame-read error. -/
inductive FrameEvent where
  | text (p : ParseOutcome)
  | nonText
  | readFail
deriving Repr

/-- The inner receive loop (src/fast-client/src/lib.rs:216-248) over a
scripted sequence of events, returning the callback invocations in order:
text frames contribute their updates and the loop continues; non-text frames
are skipped; a frame-read error breaks out of the loop. -/
def receiveLoop : List FrameEvent → List DepthUpdate
  | [] => []
  | .text p :: rest => frameUpdates p ++ receiveLoop rest
  | .nonText :: rest => receiveLoop rest
  | .readFail :: _ => []

/-- Connection state of the listener (spec §3 `ConnectionState`). -/
inductive ConnState where
  | connecting
  | streaming
  | disconnected
deriving Repr, DecidableEq

/-- The outer reconnect loop (src/fast-client/src/lib.rs:209-255) over a
scripted sequence of connection outcomes (`true` = connect success), started
at time `t` seconds: each attempt starts immediately, a failed attempt is
followed by `sleep(Duration::from_secs(5))` and the next attempt, a
successful attempt enters the streaming state. Returns the start time of
every attempt made, and the state reached when the script ends: exhausting
the script without a success leaves the loop still connecting — there is no
exit path. -/
def connectLoop : List Bool → Nat → List Nat × ConnState
  | [], _ => ([], .connecting)
  | true :: _, t => ([t], .streaming)
  | false :: rest, t =>
    let r := connectLoop rest (t + 5)
    (t :: r.1, r.2)

/-- ASCII lower-casing of one character. -/
def lowerChar (c : Char) : Char :=
  if 65 ≤ c.toNat ∧ c.toNat ≤ 90 then Char.ofNat (c.toNat + 32) else c

/-- Model of `str::to_lowercase`; the full Unicode lowering coincides with
ASCII lowering on the venue's ASCII asset names. -/
def lowerStr (s : String) : String := String.mk (s.toList.map lowerChar)

/-- Stream name for one asset (src/fast-client/src/lib.rs:196):
lower-cased asset followed by the fixed suffix `usdt@bookTicker`. -/
def streamName (a : String) : String := lowerStr a ++ "usdt@bookTicker"

/-- The `streams` query parameter: one stream name per asset, joined with
`/` (src/fast-client/src/lib.rs:194-198). -/
def buildStreams (assets : List String) : String :=
  String.intercalate "/" (assets.map streamName)

/-- The full subscription URL (src/fast-client/src/lib.rs:200). -/
def subscriptionUrl (assets : List String) : String :=
  "wss://fstream.binance.com/stream?streams=" ++ buildStreams assets

/-- Claim-side definition, following the spec's words: strip the
quote-currency suffix `USDT` from a symbol if it ends with it, and leave the
symbol unchanged otherwise. Kept separate from `replaceUSDT` (the code's
behavior) to compare the two. -/
def stripQuoteSuffix (s : String) : String :=
  let cs := s.toList
  if 4 ≤ cs.length ∧ cs.drop (cs.length - 4) = ['U', 'S', 'D', 'T']
  then String.mk (cs.take (cs.length - 4)) else s

/-! ## Concrete frames used as test inputs -/

/-- The spec's known-good streaming frame, as parsed JSON. -/
def btcTickerFrame : Json :=
  .obj [("data", .obj [("s", .str "BTCUSDT"), ("b", .str "50000.1"),
                       ("B", .str "0.5"), ("a", .str "50001.2"), ("A", .str "0.3")])]

/-- The decoded payload of `btcTickerFrame`. -/
def btcTickerData : BinanceData :=
  { s := "BTCUSDT", b := "50000.1", B := "0.5", a := "50001.2", A := "0.3" }

/-- A frame whose wire symbol contains `USDT` as a prefix, not a suffix. -/
def usdtbtcFrame : Json :=
  .obj [("data", .obj [("s", .str "USDTBTC"), ("b", .str "1"),
                       ("B", .str "2"), ("a", .str "3"), ("A", .str "4")])]

/-- A frame whose best-bid field is not a number. -/
def nanFrame : Json :=
  .obj [("data", .obj [("s", .str "ETHUSDT"), ("b", .str "NaNtext"),
                       ("B", .str "1"), ("a", .str "2"), ("A", .str "3")])]

/-- The decoded payload of `nanFrame`. -/
def nanData : BinanceData :=
  { s := "ETHUSDT", b := "NaNtext", B := "1", a := "2", A := "3" }

/-- A frame that decodes but carries no `data` field. -/
def noDataFrame : Json := .obj [("stream", .str "btcusdt@bookTicker")]

/-- A frame whose `data` object is missing the required field `B`. -/
def missingFieldFrame : Json :=
  .obj [("data", .obj [("s", .str "BTCUSDT"), ("b", .str "1"),
                       ("a", .str "2"), ("A", .str "3")])]

/-- The fields of `missingFieldFrame`'s `data` object. -/
def missingFieldData : List (String × Json) :=
  [("s", .str "BTCUSDT"), ("b", .str "1"), ("a", .str "2"), ("A", .str "3")]

/-! ## Theorems -/

/-- Unfolding of `sign`: the canonical string is
`method ‖ timestamp ‖ path ‖ query ‖ body` and the result is its keyed hex
digest. Holds by computation. -/
theorem sign_eq_hmacHex (c : DeltaNativeClient) (method path query body timestamp : String) :
    c.sign method path query body timestamp =
      Except.ok (hmacSha256Hex c.api_secret (method ++ timestamp ++ path ++ query ++ body)) := rfl

/-- C1: every call to `sign` hashes exactly the concatenation
`method ‖ timestamp ‖ path ‖ query ‖ body` (no separators), keyed by the raw
secret bytes and hex encoded; on the spec's fixed vector the signed string is
exactly `"GET1000000/v2/wallet/balances"` keyed by `"secret"`. -/
theorem sign_canonical_string :
    (∀ (c : DeltaNativeClient) (method path query body timestamp : String),
        c.sign method path query body timestamp =
          Except.ok (hmacSha256Hex c.api_secret (method ++ timestamp ++ path ++ query ++ body)))
    ∧ (∀ key url : String,
        (DeltaNativeClient.mk key "secret" url).sign "GET" "/v2/wallet/balances" "" "" "1000000" =
          Except.ok (hmacSha256Hex "secret" "GET1000000/v2/wallet/balances")) := by
  refine ⟨fun c m p q b t => sign_eq_hmacHex c m p q b t, fun key url => ?_⟩
  rw [sign_eq_hmacHex]
  rw [show ("GET" ++ "1000000" ++ "/v2/wallet/balances" ++ "" ++ "" : String) =
        "GET1000000/v2/wallet/balances" from by decide]

/-- C9: HMAC-SHA256 key setup accepts keys of every length, so `sign` always
succeeds — the `InvalidCredential` branch is unreachable, for the empty
secret included. -/
theorem sign_never_fails :
    (∀ key : List Nat, (newFromSlice key).isSome)
    ∧ (∀ (c : DeltaNativeClient) (method path query body timestamp : String),
        ∃ sig, c.sign method path query body timestamp = Except.ok sig) := by
  exact ⟨fun key => rfl, fun c m p q b t => ⟨_, sign_eq_hmacHex c m p q b t⟩⟩

/-- C6: `place_order` serializes the payload, signs
`(POST, "/v2/orders", "", body, timestamp)`, sends the four headers, and the
transmitted body is byte-for-byte the string that was signed, with the
timestamp header equal to the seconds-since-epoch string in the signature
input. -/
theorem place_order_request_shape (c : DeltaNativeClient) (body : Json) (now : Nat) :
    ∃ r : HttpRequest,
      c.place_order body now = Except.ok r
      ∧ r.method = "POST"
      ∧ r.url = c.base_url ++ "/v2/orders"
      ∧ r.body = body.serialize
      ∧ headerValue r "api-key" = some c.api_key
      ∧ headerValue r "timestamp" = some (toString now)
      ∧ headerValue r "signature" =
          some (hmacSha256Hex c.api_secret
            ("POST" ++ toString now ++ "/v2/orders" ++ "" ++ r.body))
      ∧ headerValue r "Content-Type" = some "application/json"
      ∧ c.sign "POST" "/v2/orders" "" r.body (toString now) =
          Except.ok (hmacSha256Hex c.api_secret
            ("POST" ++ toString now ++ "/v2/orders" ++ "" ++ r.body)) := by
  refine ⟨_, rfl, rfl, rfl, rfl, ?_, ?_, ?_, ?_, sign_eq_hmacHex c _ _ _ _ _⟩
  all_goals simp [headerValue, List.find?]
  rfl

/-- C8: the subscription URL is the fixed endpoint with the `streams` query
parameter built by lower-casing each asset, appending the fixed stream
suffix, and joining with `/`. -/
theorem subscription_url_build :
    (∀ assets : List String,
        subscriptionUrl assets =
          "wss://fstream.binance.com/stream?streams=" ++
            String.intercalate "/" (assets.map fun a => lowerStr a ++ "usdt@bookTicker"))
    ∧ subscriptionUrl ["BTC", "eth"] =
        "wss://fstream.binance.com/stream?streams=btcusdt@bookTicker/ethusdt@bookTicker" := by
  exact ⟨fun assets => rfl, by decide⟩

/-- A script of `n` failures then one success reaches the streaming state. -/
theorem connectLoop_snd_fail_then_succeed (n t : Nat) :
    (connectLoop (List.replicate n false ++ [true]) t).2 = ConnState.streaming := by
  induction n generalizing t with
  | zero => rfl
  | succ n ih => exact ih (t + 5)

/-- A script of `n` failures then one success makes attempts at exactly
`t, t + 5, ..., t + 5n`. -/
theorem connectLoop_fst_fail_then_succeed (n t : Nat) :
    (connectLoop (List.replicate n false ++ [true]) t).1 =
      (List.range (n + 1)).map (fun i => t + 5 * i) := by
  induction n generalizing t with
  | zero =>
    show [t] = _
    simp [List.range_succ]
  | succ n ih =>
    show t :: (connectLoop (List.replicate n false ++ [true]) (t + 5)).1 = _
    rw [ih, show List.range (n + 1 + 1) = 0 :: List.map Nat.succ (List.range (n + 1)) from
          List.range_succ_eq_map (n + 1)]
    simp only [List.map_cons, List.map_map, List.cons.injEq]
    exact ⟨by omega, List.map_congr_left fun i _ => by simp only [Function.comp_apply]; omega⟩

/-- A script of `n` straight failures leaves the loop still connecting. -/
theorem connectLoop_snd_all_fail (n t : Nat) :
    (connectLoop (List.replicate n false) t).2 = ConnState.connecting := by
  induction n generalizing t with
  | zero => rfl
  | succ n ih => exact ih (t + 5)

/-- A script of `n` straight failures still makes all `n` attempts,
5 seconds apart. -/
theorem connectLoop_fst_all_fail (n t : Nat) :
    (connectLoop (List.replicate n false) t).1 =
      (List.range n).map (fun i => t + 5 * i) := by
  induction n generalizing t with
  | zero => rfl
  | succ n ih =>
    show t :: (connectLoop (List.replicate n false) (t + 5)).1 = _
    rw [ih, show List.range (n + 1) = 0 :: List.map Nat.succ (List.range n) from
          List.range_succ_eq_map n]
    simp only [List.map_cons, List.map_map, List.cons.injEq]
    exact ⟨by omega, List.map_congr_left fun i _ => by simp only [Function.comp_apply]; omega⟩

/-- C3: given `n` immediate connect failures then a success, the loop makes
exactly `n + 1` attempts, starting 5 seconds apart (so at least 5 seconds
between starts, with no backoff growth), and reaches the streaming state on
the successful attempt; on a script of failures only, it makes every attempt
and is still connecting — no retry count limits it and no path exits it. -/
theorem reconnect_fixed_backoff (n : Nat) :
    (connectLoop (List.replicate n false ++ [true]) 0).1 =
        (List.range (n + 1)).map (fun i => 5 * i)
    ∧ (connectLoop (List.replicate n false ++ [true]) 0).1.length = n + 1
    ∧ List.Chain' (fun a b => a + 5 ≤ b) (connectLoop (List.replicate n false ++ [true]) 0).1
    ∧ (connectLoop (List.replicate n false ++ [true]) 0).2 = ConnState.streaming
    ∧ (connectLoop (List.replicate n false) 0).1.length = n
    ∧ (connectLoop (List.replicate n false) 0).2 = ConnState.connecting := by
  rw [connectLoop_fst_fail_then_succeed, connectLoop_fst_all_fail]
  refine ⟨List.map_congr_left fun i _ => by omega, by simp, ?_,
          connectLoop_snd_fail_then_succeed n 0, by simp,
          connectLoop_snd_all_fail n 0⟩
  refine (List.chain'_map _).mpr ?_
  exact (List.chain'_range_succ _ n).mpr fun m _ => by omega

/-- Binding a constant `none` gives `none`. -/
theorem bind_const_none {α β : Type} (x : Option α) :
    (x.bind fun _ => (none : Option β)) = none := by cases x <;> rfl

/-- A missing or non-string `s` field fails the payload decode. -/
theorem decode_data_none_s (j : Json) (h : asString (getField j "s") = none) :
    decodeBinanceData j = none := by
  simp [decodeBinanceData, h]

/-- A missing or non-string `b` field fails the payload decode. -/
theorem decode_data_none_b (j : Json) (h : asString (getField j "b") = none) :
    decodeBinanceData j = none := by
  simp [decodeBinanceData, h, bind_const_none]

/-- A missing or non-string `B` field fails the payload decode. -/
theorem decode_data_none_bq (j : Json) (h : asString (getField j "B") = none) :
    decodeBinanceData j = none := by
  simp [decodeBinanceData, h, bind_const_none]

/-- A missing or non-string `a` field fails the payload decode. -/
theorem decode_data_none_a (j : Json) (h : asString (getField j "a") = none) :
    decodeBinanceData j = none := by
  simp [decodeBinanceData, h, bind_const_none]

/-- A missing or non-string `A` field fails the payload decode. -/
theorem decode_data_none_aq (j : Json) (h : asString (getField j "A") = none) :
    decodeBinanceData j = none := by
  simp [decodeBinanceData, h, bind_const_none]

/-- A payload decodes only when all five fields are present as strings. -/
theorem decode_data_fields_some (dj : Json) (d : BinanceData)
    (hd : decodeBinanceData dj = some d) (k : String)
    (hk : k ∈ (["s", "b", "B", "a", "A"] : List String)) :
    (asString (getField dj k)).isSome := by
  fin_cases hk <;>
    · rw [Option.isSome_iff_ne_none]
      intro hnone
      first
        | rw [decode_data_none_s dj hnone] at hd
        | rw [decode_data_none_b dj hnone] at hd
        | rw [decode_data_none_bq dj hnone] at hd
        | rw [decode_data_none_a dj hnone] at hd
        | rw [decode_data_none_aq dj hnone] at hd
      exact Option.noConfusion hd

/-- C10: a frame whose `data` object is present but is missing one of the
five fields `s`, `b`, `B`, `a`, `A` (or carries it as a non-string value)
fails deserialization of the whole message and produces zero callback
invocations; successful decodes require all five fields present as strings,
so the default-to-0.0 policy can only apply to present string fields. -/
theorem missing_field_skips_frame (fs dfs : List (String × Json)) (k : String)
    (hdata : getField (.obj fs) "data" = some (.obj dfs))
    (hk : k ∈ (["s", "b", "B", "a", "A"] : List String))
    (hbad : asString (getField (.obj dfs) k) = none) :
    decodeBinanceMsg (.obj fs) = none
    ∧ frameUpdates (.ok (.obj fs)) = []
    ∧ (∀ (dj : Json) (d : BinanceData), decodeBinanceData dj = some d →
        ∀ k', k' ∈ (["s", "b", "B", "a", "A"] : List String) →
          (asString (getField dj k')).isSome) := by
  have hnone : decodeBinanceData (.obj dfs) = none := by
    fin_cases hk
    · exact decode_data_none_s _ hbad
    · exact decode_data_none_b _ hbad
    · exact decode_data_none_bq _ hbad
    · exact decode_data_none_a _ hbad
    · exact decode_data_none_aq _ hbad
  have hmsg : decodeBinanceMsg (.obj fs) = none := by
    simp [decodeBinanceMsg, hdata, hnone]
  exact ⟨hmsg, by simp [frameUpdates, hmsg], decode_data_fields_some⟩

/-- The bid price of the spec's frame parses to exactly `50000.1`. -/
theorem parse_50000_1 : (parseF64 "50000.1").getD 0 = (50000.1 : ℚ) := by
  rw [show parseF64 "50000.1" =
        some (((50000 : Nat) : ℚ) + ((1 : Nat) : ℚ) / 10 ^ (1 : Nat)) from rfl]
  norm_num

/-- The bid quantity of the spec's frame parses to exactly `0.5`. -/
theorem parse_0_5 : (parseF64 "0.5").getD 0 = (0.5 : ℚ) := by
  rw [show parseF64 "0.5" =
        some (((0 : Nat) : ℚ) + ((5 : Nat) : ℚ) / 10 ^ (1 : Nat)) from rfl]
  norm_num

/-- The ask price of the spec's frame parses to exactly `50001.2`. -/
theorem parse_50001_2 : (parseF64 "50001.2").getD 0 = (50001.2 : ℚ) := by
  rw [show parseF64 "50001.2" =
        some (((50001 : Nat) : ℚ) + ((2 : Nat) : ℚ) / 10 ^ (1 : Nat)) from rfl]
  norm_num

/-- The ask quantity of the spec's frame parses to exactly `0.3`. -/
theorem parse_0_3 : (parseF64 "0.3").getD 0 = (0.3 : ℚ) := by
  rw [show parseF64 "0.3" =
        some (((0 : Nat) : ℚ) + ((3 : Nat) : ℚ) / 10 ^ (1 : Nat)) from rfl]
  norm_num

/-- C2 (amended): the delivered symbol is the wire symbol with every
occurrence of `USDT` removed — which coincides with stripping the
quote-currency suffix whenever `USDT` occurs only as a suffix — and a
decoded payload yields exactly one callback invocation; on the spec's
concrete frame the single delivered update is
`{symbol "BTC", 50000.1, 0.5, 50001.2, 0.3}`. -/
theorem frame_dispatch_replace_all_usdt (j : Json) (d : BinanceData)
    (rest : List FrameEvent)
    (h : decodeBinanceMsg j = some { data := some d }) :
    frameUpdates (.ok j) =
      [{ s := String.mk (replaceUSDT d.s.toList)
       , bb := (parseF64 d.b).getD 0, bq := (parseF64 d.B).getD 0
       , ba := (parseF64 d.a).getD 0, aq := (parseF64 d.A).getD 0 }]
    ∧ receiveLoop (.text (.ok j) :: rest) = frameUpdates (.ok j) ++ receiveLoop rest
    ∧ frameUpdates (.ok btcTickerFrame) =
        [{ s := "BTC", bb := 50000.1, bq := 0.5, ba := 50001.2, aq := 0.3 }] := by
  refine ⟨by simp [frameUpdates, h, binanceDataUpdate], rfl, ?_⟩
  rw [show frameUpdates (.ok btcTickerFrame) = [binanceDataUpdate btcTickerData] from rfl]
  have hs : String.mk (replaceUSDT btcTickerData.s.data) = "BTC" := by decide
  have hb : (parseF64 btcTickerData.b).getD 0 = (50000.1 : ℚ) := parse_50000_1
  have hbq : (parseF64 btcTickerData.B).getD 0 = (0.5 : ℚ) := parse_0_5
  have ha : (parseF64 btcTickerData.a).getD 0 = (50001.2 : ℚ) := parse_50001_2
  have haq : (parseF64 btcTickerData.A).getD 0 = (0.3 : ℚ) := parse_0_3
  simp [binanceDataUpdate, hs, hb, hbq, ha, haq]

/-- C2 (counterexample to the claim as stated): on a wire symbol that
contains `USDT` other than as a suffix, the delivered symbol is not the
suffix-stripped wire symbol — the code removes every occurrence. -/
theorem symbol_strip_spec_counterexample :
    (frameUpdates (.ok usdtbtcFrame)).map DepthUpdate.s = ["BTC"]
    ∧ (frameUpdates (.ok usdtbtcFrame)).length = 1
    ∧ stripQuoteSuffix "USDTBTC" = "USDTBTC"
    ∧ (frameUpdates (.ok usdtbtcFrame)).map DepthUpdate.s ≠ [stripQuoteSuffix "USDTBTC"] := by
  exact ⟨by decide, by decide, by decide, by decide⟩

/-- Witness for `frame_dispatch_replace_all_usdt` at the spec's frame. -/
theorem frame_dispatch_replace_all_usdt_witness :
    decodeBinanceMsg btcTickerFrame = some { data := some btcTickerData }
    ∧ (frameUpdates (.ok btcTickerFrame) =
        [{ s := String.mk (replaceUSDT btcTickerData.s.toList)
         , bb := (parseF64 btcTickerData.b).getD 0, bq := (parseF64 btcTickerData.B).getD 0
         , ba := (parseF64 btcTickerData.a).getD 0, aq := (parseF64 btcTickerData.A).getD 0 }]
       ∧ receiveLoop [.text (.ok btcTickerFrame)] = frameUpdates (.ok btcTickerFrame) ++ receiveLoop []
       ∧ frameUpdates (.ok btcTickerFrame) =
           [{ s := "BTC", bb := 50000.1, bq := 0.5, ba := 50001.2, aq := 0.3 }]) :=
  ⟨rfl, frame_dispatch_replace_all_usdt btcTickerFrame btcTickerData [] rfl⟩

/-- C4: a decoded payload with an unparseable numeric field still produces
exactly one callback invocation, the unparseable fields defaulted to `0.0`
and the parseable ones carrying their parsed values. -/
theorem parse_failure_defaults_zero (j : Json) (d : BinanceData)
    (h : decodeBinanceMsg j = some { data := some d })
    (_hfail : parseF64 d.b = none ∨ parseF64 d.B = none
            ∨ parseF64 d.a = none ∨ parseF64 d.A = none) :
    ∃ u : DepthUpdate, frameUpdates (.ok j) = [u]
      ∧ u.bb = (parseF64 d.b).getD 0 ∧ u.bq = (parseF64 d.B).getD 0
      ∧ u.ba = (parseF64 d.a).getD 0 ∧ u.aq = (parseF64 d.A).getD 0
      ∧ (parseF64 d.b = none → u.bb = 0) ∧ (parseF64 d.B = none → u.bq = 0)
      ∧ (parseF64 d.a = none → u.ba = 0) ∧ (parseF64 d.A = none → u.aq = 0) := by
  refine ⟨binanceDataUpdate d, by simp [frameUpdates, h], rfl, rfl, rfl, rfl,
          ?_, ?_, ?_, ?_⟩
  all_goals intro hz
  all_goals simp [binanceDataUpdate, hz]

/-- Witness for `parse_failure_defaults_zero` at a frame whose bid field is
`"NaNtext"`. -/
theorem parse_failure_defaults_zero_witness :
    decodeBinanceMsg nanFrame = some { data := some nanData }
    ∧ parseF64 nanData.b = none
    ∧ (∃ u : DepthUpdate, frameUpdates (.ok nanFrame) = [u]
        ∧ u.bb = (parseF64 nanData.b).getD 0 ∧ u.bq = (parseF64 nanData.B).getD 0
        ∧ u.ba = (parseF64 nanData.a).getD 0 ∧ u.aq = (parseF64 nanData.A).getD 0
        ∧ (parseF64 nanData.b = none → u.bb = 0) ∧ (parseF64 nanData.B = none → u.bq = 0)
        ∧ (parseF64 nanData.a = none → u.ba = 0) ∧ (parseF64 nanData.A = none → u.aq = 0)) :=
  ⟨rfl, rfl, parse_failure_defaults_zero nanFrame nanData rfl (Or.inl rfl)⟩

/-- C5: a text frame that fails JSON parsing, fails to decode as the message
shape, or decodes without a `data` payload produces zero callback invocations
and the receive loop continues with the remaining frames unchanged — the
connection is not terminated. -/
theorem malformed_frame_no_dispatch (p : ParseOutcome) (rest : List FrameEvent)
    (h : p = .err ∨ ∃ j, p = .ok j ∧
          (decodeBinanceMsg j = none ∨ decodeBinanceMsg j = some { data := none })) :
    frameUpdates p = [] ∧ receiveLoop (.text p :: rest) = receiveLoop rest := by
  have hempty : frameUpdates p = [] := by
    rcases h with rfl | ⟨j, rfl, hj | hj⟩
    · rfl
    · simp [frameUpdates, hj]
    · simp [frameUpdates, hj]
  exact ⟨hempty, by simp [receiveLoop, hempty]⟩

/-- Witness for `malformed_frame_no_dispatch` at a frame with no `data`
field, followed by further loop events. -/
theorem malformed_frame_no_dispatch_witness :
    ((ParseOutcome.ok noDataFrame) = .err ∨ ∃ j, (ParseOutcome.ok noDataFrame) = .ok j ∧
        (decodeBinanceMsg j = none ∨ decodeBinanceMsg j = some { data := none }))
    ∧ (frameUpdates (.ok noDataFrame) = []
       ∧ receiveLoop (.text (.ok noDataFrame) :: [.text (.ok btcTickerFrame)]) =
           receiveLoop [.text (.ok btcTickerFrame)]) :=
  ⟨Or.inr ⟨noDataFrame, rfl, Or.inr rfl⟩,
   malformed_frame_no_dispatch _ _ (Or.inr ⟨noDataFrame, rfl, Or.inr rfl⟩)⟩

/-- Witness for `missing_field_skips_frame` at a frame whose `data` object
lacks the `B` field. -/
theorem missing_field_skips_frame_witness :
    getField (.obj [("data", Json.obj missingFieldData)]) "data" = some (.obj missingFieldData)
    ∧ ("B" : String) ∈ (["s", "b", "B", "a", "A"] : List String)
    ∧ asString (getField (.obj missingFieldData) "B") = none
    ∧ (decodeBinanceMsg (.obj [("data", Json.obj missingFieldData)]) = none
       ∧ frameUpdates (.ok (.obj [("data", Json.obj missingFieldData)])) = []
       ∧ (∀ (dj : Json) (d : BinanceData), decodeBinanceData dj = some d →
           ∀ k', k' ∈ (["s", "b", "B", "a", "A"] : List String) →
             (asString (getField dj k')).isSome)) :=
  ⟨rfl, by decide, rfl,
   missing_field_skips_frame [("data", Json.obj missingFieldData)] missingFieldData "B"
     rfl (by decide) rfl⟩

end FastClient
